import Mathlib

/-!
Shallow embedding of `ui/qt/voip_calls_dialog.cpp` (VoIP Calls dialog):
the call-record data model, the per-row rendering (`drawData`), the sort
comparator (`operator<`), the filter compiler (`prepareFilter`), the
sequence-selection pass (`showSequence`) and the table synchronizer
(`updateCalls`), together with proofs of the specified properties.
-/

namespace VoipCalls

/-- Relative timestamp: seconds and nanoseconds, as in wsutil `nstime_t`. -/
structure nstime_t where
  secs : Int
  nsecs : Int
deriving DecidableEq, Repr

/-- Modelled from the spec: `nstime_cmp` (wsutil, outside this file) performs a
numeric comparison of relative timestamps, seconds first, then the sub-second
part; it returns a negative, zero or positive value like C `memcmp`. -/
def nstime_cmp (a b : nstime_t) : Int :=
  if a.secs < b.secs then -1
  else if b.secs < a.secs then 1
  else if a.nsecs < b.nsecs then -1
  else if b.nsecs < a.nsecs then 1
  else 0

/-- Addresses are modelled by their normalized display representation. -/
abbrev address := String

/-- Modelled from the spec: `cmp_address` (epan, outside this file) is a total
ordering over address values, byte-wise over the normalized representation. -/
def cmp_address (a b : address) : Int :=
  if a < b then -1 else if b < a then 1 else 0

/-- Modelled from the spec: the external address formatting service renders an
address value as a display string. -/
def address_to_display (a : address) : String := a

/-- Protocol tag of a call record (the variants the dialog dispatches on). -/
inductive voip_protocol where
  | VOIP_ISUP
  | VOIP_H323
  | VOIP_COMMON
  | VOIP_OTHER
deriving DecidableEq, Repr

/-- Modelled from the spec: the protocol display-name table `voip_protocol_name`
(voip_calls.c, outside this file). -/
def voip_protocol_name : voip_protocol → String
  | .VOIP_ISUP => "ISUP"
  | .VOIP_H323 => "H323"
  | .VOIP_COMMON => "VoIP"
  | .VOIP_OTHER => "OTHER"

/-- Call lifecycle states (voip_calls.h). -/
inductive voip_call_state where
  | VOIP_NO_STATE
  | VOIP_CALL_SETUP
  | VOIP_RINGING
  | VOIP_IN_CALL
  | VOIP_CANCELLED
  | VOIP_COMPLETED
  | VOIP_REJECTED
  | VOIP_UNKNOWN
deriving DecidableEq, Repr

/-- Modelled from the spec: the state display-name table `voip_call_state_name`
(voip_calls.c, outside this file). -/
def voip_call_state_name : voip_call_state → String
  | .VOIP_NO_STATE => ""
  | .VOIP_CALL_SETUP => "CALL SETUP"
  | .VOIP_RINGING => "RINGING"
  | .VOIP_IN_CALL => "IN CALL"
  | .VOIP_CANCELLED => "CANCELLED"
  | .VOIP_COMPLETED => "COMPLETED"
  | .VOIP_REJECTED => "REJECTED"
  | .VOIP_UNKNOWN => "UNKNOWN"

/-- ISUP protocol payload (`isup_calls_info_t`): network indicator and point
codes, the fields read by `drawData`. -/
structure isup_calls_info_t where
  ni : Nat
  opc : Nat
  dpc : Nat
deriving DecidableEq, Repr

/-- H.323 protocol payload (`h323_calls_info_t`): the flags read by
`drawData`. -/
structure h323_calls_info_t where
  is_h245Tunneling : Bool
  is_faststart_Setup : Bool
  is_faststart_Proc : Bool
deriving DecidableEq, Repr

/-- The protocol-specific payload attached to a call record (`prot_info`,
a `void *` tagged by `protocol` in the C source). -/
inductive prot_info_t where
  | isup : isup_calls_info_t → prot_info_t
  | h323 : h323_calls_info_t → prot_info_t
  | other
deriving DecidableEq, Repr

/-- Call record (`voip_calls_info_t`), restricted to the fields this dialog
reads. -/
structure voip_calls_info_t where
  call_num : Nat
  protocol : voip_protocol
  prot_info : prot_info_t
  protocol_name : Option String
  call_comment : String
  from_identity : String
  to_identity : String
  initial_speaker : address
  npackets : Nat
  call_state : voip_call_state
  start_rel_ts : nstime_t
  stop_rel_ts : nstime_t
  start_fd_num : Nat
deriving DecidableEq, Repr

/-- `UTF8_RIGHTWARDS_ARROW` from ui/utf8_entities.h. -/
def UTF8_RIGHTWARDS_ARROW : String := "→"

/-- Modelled from the spec: the external fixed-point time rendering
(`nstime_to_sec` plus `QString::number(..., 'f', 6)`), abstracted as a
deterministic rendering of (secs, nsecs). -/
def formatTimeText (t : nstime_t) : String :=
  toString t.secs ++ "." ++ toString t.nsecs

/-- The comment string derived by `drawData` (voip_calls_dialog.cpp lines
92-128): dispatch on the protocol tag; ISUP formats
"%1-%2 → %4-%5" from ni/opc/dpc, H.323 formats the tunneling and
fast-start flags, everything else shows `call_comment` verbatim. -/
def callComments (ci : voip_calls_info_t) : String :=
  match ci.protocol with
  | .VOIP_ISUP =>
    match ci.prot_info with
    | .isup isup_info =>
      toString isup_info.ni ++ "-" ++ toString isup_info.opc ++ " " ++
        UTF8_RIGHTWARDS_ARROW ++ " " ++
        toString isup_info.ni ++ "-" ++ toString isup_info.dpc
    | _ => ""
  | .VOIP_H323 =>
    match ci.prot_info with
    | .h323 h323_info =>
      let flag : Bool :=
        if ci.call_state = .VOIP_CALL_SETUP then
          h323_info.is_faststart_Setup
        else
          h323_info.is_faststart_Setup && h323_info.is_faststart_Proc
      "Tunneling: " ++ (if h323_info.is_h245Tunneling then "On" else "Off") ++
        "  Fast Start: " ++ (if flag then "On" else "Off")
    | _ => ""
  | _ => ci.call_comment

/-- Column indices (voip_calls_dialog.cpp lines 52-60). -/
def start_time_col_ : Nat := 0

/-- Column index of the stop time column. -/
def stop_time_col_ : Nat := 1

/-- Column index of the initial speaker column. -/
def initial_speaker_col_ : Nat := 2

/-- Column index of the From column. -/
def from_col_ : Nat := 3

/-- Column index of the To column. -/
def to_col_ : Nat := 4

/-- Column index of the Protocol column. -/
def protocol_col_ : Nat := 5

/-- Column index of the Packets column. -/
def packets_col_ : Nat := 6

/-- Column index of the State column. -/
def state_col_ : Nat := 7

/-- Column index of the Comments column. -/
def comments_col_ : Nat := 8

/-- The texts `drawData` writes into a row's nine columns
(voip_calls_dialog.cpp lines 72-130), as a function of the column index;
`QTreeWidgetItem::text` yields the empty string for a column never set. -/
def drawDataText (ci : voip_calls_info_t) (col : Nat) : String :=
  if col = start_time_col_ then formatTimeText ci.start_rel_ts
  else if col = stop_time_col_ then formatTimeText ci.stop_rel_ts
  else if col = initial_speaker_col_ then address_to_display ci.initial_speaker
  else if col = from_col_ then ci.from_identity
  else if col = to_col_ then ci.to_identity
  else if col = protocol_col_ then
    match ci.protocol, ci.protocol_name with
    | .VOIP_COMMON, some n => n
    | p, _ => voip_protocol_name p
  else if col = packets_col_ then toString ci.npackets
  else if col = state_col_ then voip_call_state_name ci.call_state
  else if col = comments_col_ then callComments ci
  else ""

/-- The sort comparator `VoipCallsTreeWidgetItem::operator<`
(voip_calls_dialog.cpp lines 132-159): switch on the active sort column;
start/stop time via `nstime_cmp`, initial speaker via `cmp_address`,
packets numerically, anything else falls back to Qt's case-sensitive
lexical comparison of the rendered column text. -/
def itemLt (sortCol : Nat) (a b : voip_calls_info_t) : Bool :=
  if sortCol = start_time_col_ then
    decide (nstime_cmp a.start_rel_ts b.start_rel_ts < 0)
  else if sortCol = stop_time_col_ then
    decide (nstime_cmp a.stop_rel_ts b.stop_rel_ts < 0)
  else if sortCol = initial_speaker_col_ then
    decide (cmp_address a.initial_speaker b.initial_speaker < 0)
  else if sortCol = packets_col_ then
    decide (a.npackets < b.npackets)
  else
    decide (drawDataText a sortCol < drawDataText b sortCol)

end VoipCalls

namespace VoipCalls

/-- One entry of the Event Sequence Index (`seq_analysis_item_t`), restricted
to the fields this dialog reads: the owning call's number, the frame number
(`fd->num`) and the mutable visibility flag. -/
structure seq_analysis_item_t where
  conv_num : Nat
  fd_num : Nat
  display : Bool
deriving DecidableEq, Repr

/-- The set of call numbers gathered from the selected tree items
(voip_calls_dialog.cpp lines 331-334 and 442-445): `QSet<guint16>`
membership is modelled by list membership. -/
def selectedCallNums (items : List voip_calls_info_t) : List Nat :=
  items.map (fun ci => ci.call_num)

/-- The filter-building loop of `VoipCallsDialog::prepareFilter`
(voip_calls_dialog.cpp lines 336-344): walk the graph-analysis list from its
head, stop as soon as the current link or its data pointer is null, and for
every item whose `conv_num` is selected append
`or_prepend ++ "frame.number == " ++ fd->num`, switching `or_prepend` to
`" or "` after the first clause. -/
def buildFilterStr (selected : List Nat) :
    List (Option seq_analysis_item_t) → String → String → String
  | [], filter_str, _ => filter_str
  | none :: _, filter_str, _ => filter_str
  | some ga_item :: rest, filter_str, or_prepend =>
    if selected.contains ga_item.conv_num then
      buildFilterStr selected rest
        (filter_str ++ or_prepend ++ "frame.number == " ++ toString ga_item.fd_num)
        " or "
    else
      buildFilterStr selected rest filter_str or_prepend

/-- `VoipCallsDialog::prepareFilter` (voip_calls_dialog.cpp lines 320-435):
the guard at line 322 returns early — emitting nothing — when fewer than one
item is selected or the graph-analysis structure is absent; otherwise the
built filter string is emitted via `updateFilter`. `none` models the early
return, `some s` the emitted string. -/
def prepareFilter (has_graph_analysis : Bool)
    (selectedItems : List voip_calls_info_t)
    (ga_items : List (Option seq_analysis_item_t)) : Option String :=
  if selectedItems.length < 1 || !has_graph_analysis then none
  else some (buildFilterStr (selectedCallNums selectedItems) ga_items "" "")

/-- The Selection-to-Filter Compiler stated from the spec's words, for
comparison with `buildFilterStr`: one clause `"frame.number == <n>"` per
event whose `conv_num` is selected, in index order, joined with `" or "`
with no leading or trailing join token. -/
def compileFilterSpec (selected : List Nat)
    (events : List seq_analysis_item_t) : String :=
  String.intercalate " or "
    ((events.filter (fun e => selected.contains e.conv_num)).map
      (fun e => "frame.number == " ++ toString e.fd_num))

/-- The visibility-setting loop of `VoipCallsDialog::showSequence`
(voip_calls_dialog.cpp lines 448-453): walk the graph-analysis list, stop at
the first null link or null data pointer, and set each reached item's
`display` flag to the membership of its `conv_num` in the selected set. -/
def setVisibilityWalk (selected : List Nat) :
    List (Option seq_analysis_item_t) → List (Option seq_analysis_item_t)
  | [] => []
  | none :: rest => none :: rest
  | some ga_item :: rest =>
    some { ga_item with display := selected.contains ga_item.conv_num } ::
      setVisibilityWalk selected rest

/-- Modelled from the spec: `sequence_analysis_list_sort` (epan, outside this
file) is the Event Sequence Index's stable chronological sort — a stable sort
by frame number (a no-op on already-chronological appends). -/
def sequence_analysis_list_sort (items : List (Option seq_analysis_item_t)) :
    List (Option seq_analysis_item_t) :=
  items.mergeSort (fun a b =>
    decide (a.elim 0 (fun x => x.fd_num) ≤ b.elim 0 (fun x => x.fd_num)))

/-- `VoipCallsDialog::showSequence` (voip_calls_dialog.cpp lines 437-460),
restricted to its effect on the Event Sequence Index: return unchanged when
the file is closed, otherwise sort the index and run the visibility walk. -/
def showSequence (file_closed : Bool) (selectedItems : List voip_calls_info_t)
    (items : List (Option seq_analysis_item_t)) :
    List (Option seq_analysis_item_t) :=
  if file_closed then items
  else setVisibilityWalk (selectedCallNums selectedItems)
    (sequence_analysis_list_sort items)

/-- The nine column texts of one rendered row, in column order. -/
def drawDataRow (ci : voip_calls_info_t) : List String :=
  (List.range 9).map (drawDataText ci)

/-- One rendered table row: the `voip_calls_info_t` pointer stored in the
item's user data, and the texts last written by `drawData`. -/
structure TreeRow where
  call_info : voip_calls_info_t
  texts : List String
deriving DecidableEq, Repr

/-- Row construction (`VoipCallsTreeWidgetItem` constructor, lines 67-70):
store the call-info pointer and immediately draw the data. -/
def newTreeRow (ci : voip_calls_info_t) : TreeRow :=
  { call_info := ci, texts := drawDataRow ci }

/-- One pass of the refresh loop (lines 281-286): re-render a row's texts
from its stored call record. -/
def redrawRow (r : TreeRow) : TreeRow :=
  { call_info := r.call_info, texts := drawDataRow r.call_info }

/-- The prefix of a linked list reachable by `while (cur && cur->data)`:
stop at the end of the list or at the first null data pointer. -/
def takeWhileSome : List (Option α) → List α
  | some a :: rest => a :: takeWhileSome rest
  | _ => []

/-- `VoipCallsDialog::updateCalls` (voip_calls_dialog.cpp lines 268-296),
restricted to its effect on the rendered rows: start the append walk at the
link indexed by the current row count (`g_queue_peek_nth_link`), append one
row per call record until a null link or null data pointer, then redraw
every row from its stored record. -/
def updateCalls (callsinfos : List (Option voip_calls_info_t))
    (rows : List TreeRow) : List TreeRow :=
  (rows ++ (takeWhileSome (callsinfos.drop rows.length)).map newTreeRow).map
    redrawRow

/-- Observable actions `updateCalls` performs on the tree widget, for the
temporal claim about sorting suspension. -/
inductive TableAction where
  | setSortingEnabled : Bool → TableAction
  | appendRow : voip_calls_info_t → TableAction
  | refreshRow : Nat → TableAction
  | resizeColumn : Nat → TableAction
deriving DecidableEq, Repr

/-- The action trace of `VoipCallsDialog::updateCalls` (lines 268-296), in
program order: disable sorting, append the missing rows, refresh every row,
resize the columns, re-enable sorting. -/
def updateCallsTrace (callsinfos : List (Option voip_calls_info_t))
    (rowCount colCount : Nat) : List TableAction :=
  let new_calls := takeWhileSome (callsinfos.drop rowCount)
  TableAction.setSortingEnabled false ::
    (new_calls.map TableAction.appendRow ++
     (List.range (rowCount + new_calls.length)).map TableAction.refreshRow ++
     (List.range colCount).map TableAction.resizeColumn ++
     [TableAction.setSortingEnabled true])

/-- Effect of one action on the widget's sorting-enabled flag. -/
def sortingStep (b : Bool) : TableAction → Bool
  | .setSortingEnabled v => v
  | _ => b

/-- The sorting-enabled flag after executing a trace from state `b`. -/
def sortingAfter (b : Bool) (l : List TableAction) : Bool :=
  l.foldl sortingStep b

/-- Pair each action of a trace with the sorting-enabled flag in force when
the action executes. -/
def annotateSorting (b : Bool) : List TableAction → List (Bool × TableAction)
  | [] => []
  | a :: rest => (b, a) :: annotateSorting (sortingStep b a) rest

/-- Actions that mutate table content: appends and refreshes. -/
def isTableMutation : TableAction → Bool
  | .appendRow _ => true
  | .refreshRow _ => true
  | _ => false

/-- The timestamp as a single number in nanoseconds, for stating that
`nstime_cmp` is a numeric comparison. -/
def nstimeValue (t : nstime_t) : Int :=
  t.secs * 1000000000 + t.nsecs

/-- Well-formedness of a relative timestamp: the nanosecond part is
normalized into [0, 10^9). -/
def nstimeValid (t : nstime_t) : Prop :=
  0 ≤ t.nsecs ∧ t.nsecs < 1000000000

instance (t : nstime_t) : Decidable (nstimeValid t) := by
  unfold nstimeValid
  infer_instance

/-- Modelled from the spec: the view's sort is a stable sort driven by the
item comparator; `le a b` holds when `b` is not strictly before `a`. -/
def qtStableSort (sortCol : Nat) (l : List voip_calls_info_t) :
    List voip_calls_info_t :=
  l.mergeSort (fun a b => !(itemLt sortCol b a))

end VoipCalls

namespace VoipCalls

/-- The clause list the spec describes: one `"frame.number == <n>"` clause per
event whose `conv_num` is selected, in index order. -/
def filterClauses (selected : List Nat) (events : List seq_analysis_item_t) :
    List String :=
  (events.filter (fun e => selected.contains e.conv_num)).map
    (fun e => "frame.number == " ++ toString e.fd_num)

/-- Join a clause list the way the accumulator loop does: the first clause is
preceded by the initial `or_prepend` value, every later one by `" or "`. -/
def joinFrom (p : String) : List String → String
  | [] => ""
  | c :: cs => p ++ c ++ joinFrom " or " cs

/-- A concrete call record used to instantiate the theorems below. -/
def sampleCallInfo : voip_calls_info_t where
  call_num := 10
  protocol := .VOIP_OTHER
  prot_info := .other
  protocol_name := none
  call_comment := ""
  from_identity := "a"
  to_identity := "b"
  initial_speaker := "10.0.0.1"
  npackets := 2
  call_state := .VOIP_UNKNOWN
  start_rel_ts := ⟨0, 0⟩
  stop_rel_ts := ⟨1, 0⟩
  start_fd_num := 1

end VoipCalls

namespace VoipCalls

theorem arrow_glue (s : String) :
    " " ++ (UTF8_RIGHTWARDS_ARROW ++ (" " ++ s)) = " → " ++ s := by
  rw [← String.append_assoc, ← String.append_assoc]
  rfl

/-- C3: For every protocol-A (ISUP) call record, the derived comment string
equals "<ni>-<opc> → <ni>-<dpc>" built from the record's network indicator,
origin point code and destination point code; in particular, with ni=1,
opc=2, dpc=3 the comment equals "1-2 → 1-3". -/
theorem isup_comment_format :
    (∀ (ci : voip_calls_info_t) (isup_info : isup_calls_info_t),
      callComments { ci with protocol := .VOIP_ISUP,
                             prot_info := .isup isup_info } =
        toString isup_info.ni ++ "-" ++ toString isup_info.opc ++ " → " ++
          toString isup_info.ni ++ "-" ++ toString isup_info.dpc) ∧
    (∀ ci : voip_calls_info_t,
      callComments { ci with protocol := .VOIP_ISUP,
                             prot_info := .isup ⟨1, 2, 3⟩ } = "1-2 → 1-3") := by
  constructor
  · intro ci isup_info
    simp only [callComments]
    simp [String.append_assoc, arrow_glue]
  · intro ci
    rfl

/-- C4: For every protocol-B (H.323) call record, the derived comment equals
"Tunneling: <On|Off>  Fast Start: <On|Off>" where Tunneling is On iff the
h245-tunneling flag is set, and Fast Start is On iff either (the call state
is setup and the local (Setup) fast-start flag is set) or (the call is past
setup and both the local and remote (Proc) fast-start flags are set); in
particular, in setup with local fast-start true and tunneling false, the
comment is "Tunneling: Off  Fast Start: On". -/
theorem h323_comment_format :
    (∀ (ci : voip_calls_info_t) (h : h323_calls_info_t),
      callComments { ci with protocol := .VOIP_H323, prot_info := .h323 h } =
        "Tunneling: " ++ (if h.is_h245Tunneling then "On" else "Off") ++
          "  Fast Start: " ++
          (if (ci.call_state = .VOIP_CALL_SETUP ∧ h.is_faststart_Setup = true) ∨
              (ci.call_state ≠ .VOIP_CALL_SETUP ∧ h.is_faststart_Setup = true ∧
                h.is_faststart_Proc = true)
            then "On" else "Off")) ∧
    (∀ (ci : voip_calls_info_t) (b : Bool),
      callComments { ci with protocol := .VOIP_H323,
                             prot_info := .h323 ⟨false, true, b⟩,
                             call_state := .VOIP_CALL_SETUP } =
        "Tunneling: Off  Fast Start: On") := by
  constructor
  · intro ci h
    obtain ⟨tun, fsSetup, fsProc⟩ := h
    by_cases hs : ci.call_state = voip_call_state.VOIP_CALL_SETUP <;>
      cases tun <;> cases fsSetup <;> cases fsProc <;>
      simp [callComments, hs]
  · intro ci b
    rfl

end VoipCalls

namespace VoipCalls

theorem buildFilterStr_map_some (sel : List Nat) (es : List seq_analysis_item_t)
    (acc p : String) :
    buildFilterStr sel (es.map some) acc p =
      acc ++ joinFrom p (filterClauses sel es) := by
  induction es generalizing acc p with
  | nil => simp [buildFilterStr, joinFrom, filterClauses]
  | cons e es ih =>
    simp only [List.map_cons, buildFilterStr, filterClauses, List.filter_cons]
    cases hc : sel.contains e.conv_num with
    | true =>
      simp only [if_pos rfl, hc, ih, joinFrom, filterClauses]
      simp [String.append_assoc]
    | false =>
      simp [hc, ih, joinFrom, filterClauses]

theorem intercalate_go_eq_joinFrom (cs : List String) (acc : String) :
    String.intercalate.go acc " or " cs = acc ++ joinFrom " or " cs := by
  induction cs generalizing acc with
  | nil => simp [String.intercalate.go, joinFrom]
  | cons c cs ih =>
    simp [String.intercalate.go, ih, joinFrom, String.append_assoc]

theorem intercalate_or_eq_joinFrom (cs : List String) :
    String.intercalate " or " cs = joinFrom "" cs := by
  cases cs with
  | nil => rfl
  | cons c cs =>
    show String.intercalate.go c " or " cs = _
    rw [intercalate_go_eq_joinFrom]
    simp [joinFrom]

theorem compileFilterSpec_eq_joinFrom (sel : List Nat)
    (es : List seq_analysis_item_t) :
    compileFilterSpec sel es = joinFrom "" (filterClauses sel es) := by
  rw [compileFilterSpec, ← filterClauses, intercalate_or_eq_joinFrom]

theorem buildFilterStr_eq_spec (sel : List Nat) (es : List seq_analysis_item_t) :
    buildFilterStr sel (es.map some) "" "" = compileFilterSpec sel es := by
  rw [buildFilterStr_map_some, compileFilterSpec_eq_joinFrom]
  simp

end VoipCalls

namespace VoipCalls

/-- C1: For every set of selected call ids and every event sequence,
compileFilter (prepareFilter) walks the event index in index order and, for
each event whose conv_id is in the selected set, appends a clause
"frame.number == <frame_number>"; in particular, when the events for a
selected id carry exactly frames 3, 7 and 9 (other events belonging to
different ids), the result is
"frame.number == 3 or frame.number == 7 or frame.number == 9", with clause
order equal to event index order (capture order), never selection order. -/
theorem prepareFilter_clauses_in_index_order :
    (∀ (selectedItems : List voip_calls_info_t)
        (es : List seq_analysis_item_t),
      selectedItems ≠ [] →
      prepareFilter true selectedItems (es.map some) =
        some (compileFilterSpec (selectedCallNums selectedItems) es)) ∧
    (∀ ci : voip_calls_info_t,
      prepareFilter true [{ ci with call_num := 10 }]
        (([⟨10, 3, true⟩, ⟨11, 4, true⟩, ⟨10, 7, true⟩, ⟨12, 8, true⟩,
           ⟨10, 9, true⟩] : List seq_analysis_item_t).map some) =
        some "frame.number == 3 or frame.number == 7 or frame.number == 9") := by
  constructor
  · intro selectedItems es hne
    rw [prepareFilter, buildFilterStr_eq_spec]
    cases selectedItems with
    | nil => exact absurd rfl hne
    | cons x xs => rfl
  · intro ci
    rfl

/-- C1 witness: the general part instantiated at one selected call and a
one-event index. -/
theorem prepareFilter_clauses_in_index_order_witness :
    prepareFilter true [sampleCallInfo]
        (([⟨10, 3, true⟩] : List seq_analysis_item_t).map some) =
      some (compileFilterSpec (selectedCallNums [sampleCallInfo])
        [⟨10, 3, true⟩]) :=
  prepareFilter_clauses_in_index_order.1 [sampleCallInfo] [⟨10, 3, true⟩]
    (by decide)

/-- C2 counterexample: with an empty selection, `prepareFilter` takes the
early-return guard (voip_calls_dialog.cpp line 322) and emits nothing at
all — modelled as `none` — rather than yielding the empty string. -/
theorem prepareFilter_empty_selection_counterexample :
    prepareFilter true ([] : List voip_calls_info_t)
        (([⟨1, 3, true⟩] : List seq_analysis_item_t).map some) = none ∧
    prepareFilter true ([] : List voip_calls_info_t)
        (([⟨1, 3, true⟩] : List seq_analysis_item_t).map some) ≠ some "" := by
  constructor
  · rfl
  · intro h
    simp [prepareFilter] at h

/-- C2 (amended): filter compilation with an empty selected-call set returns
early and produces no filter string at all (the guard at line 322); a
non-empty selection with no matching events yields an empty string; clauses,
when present, are joined with " or " with no leading or trailing join
token. -/
theorem prepareFilter_empty_and_join :
    (∀ ga_items, prepareFilter true [] ga_items = none) ∧
    (∀ (selectedItems : List voip_calls_info_t)
        (es : List seq_analysis_item_t),
      selectedItems ≠ [] →
      (∀ e ∈ es, (selectedCallNums selectedItems).contains e.conv_num = false) →
      prepareFilter true selectedItems (es.map some) = some "") ∧
    (∀ (selectedItems : List voip_calls_info_t)
        (es : List seq_analysis_item_t),
      selectedItems ≠ [] →
      prepareFilter true selectedItems (es.map some) =
        some (String.intercalate " or "
          (filterClauses (selectedCallNums selectedItems) es))) := by
  refine ⟨fun ga_items => rfl, ?_, ?_⟩
  · intro selectedItems es hne hnone
    rw [prepareFilter, buildFilterStr_eq_spec]
    cases selectedItems with
    | nil => exact absurd rfl hne
    | cons x xs =>
      have hcl : filterClauses (selectedCallNums (x :: xs)) es = [] := by
        simp only [filterClauses, List.map_eq_nil_iff, List.filter_eq_nil_iff]
        intro e he
        simpa using hnone e he
      rw [if_neg (by simp), compileFilterSpec_eq_joinFrom, hcl]
      rfl
  · intro selectedItems es hne
    rw [prepareFilter, buildFilterStr_eq_spec]
    cases selectedItems with
    | nil => exact absurd rfl hne
    | cons x xs =>
      rw [if_neg (by simp)]
      rfl

/-- C2 witness: the amended parts instantiated at concrete inputs. -/
theorem prepareFilter_empty_and_join_witness :
    prepareFilter true [sampleCallInfo]
        (([⟨99, 3, true⟩] : List seq_analysis_item_t).map some) = some "" :=
  prepareFilter_empty_and_join.2.1 [sampleCallInfo] [⟨99, 3, true⟩]
    (by decide) (by decide)

end VoipCalls

namespace VoipCalls

theorem takeWhileSome_map_some (xs : List α) :
    takeWhileSome (xs.map some) = xs := by
  induction xs with
  | nil => rfl
  | cons x xs ih => simp [takeWhileSome, ih]

theorem takeWhileSome_map_some_append (xs : List α) (rest : List (Option α)) :
    takeWhileSome (xs.map some ++ none :: rest) = xs := by
  induction xs with
  | nil => rfl
  | cons x xs ih => simp [takeWhileSome, ih]

theorem buildFilterStr_truncates (sel : List Nat)
    (xs : List seq_analysis_item_t) (rest : List (Option seq_analysis_item_t))
    (acc p : String) :
    buildFilterStr sel (xs.map some ++ none :: rest) acc p =
      buildFilterStr sel (xs.map some) acc p := by
  induction xs generalizing acc p with
  | nil => rfl
  | cons x xs ih =>
    simp only [List.map_cons, List.cons_append, buildFilterStr]
    cases hc : sel.contains x.conv_num <;> simp [hc, ih]

theorem drop_map_some_append (xs : List α) (rest : List (Option α)) (n : Nat)
    (h : n ≤ xs.length) :
    (xs.map some ++ none :: rest).drop n = (xs.drop n).map some ++ none :: rest := by
  induction xs generalizing n with
  | nil =>
    have : n = 0 := Nat.le_zero.mp h
    simp [this]
  | cons x xs ih =>
    cases n with
    | zero => simp
    | succ m =>
      simp only [List.map_cons, List.cons_append, List.drop_succ_cons]
      exact ih m (Nat.le_of_succ_le_succ h)

/-- C10: For every event list containing a node whose payload is absent
(null data), the filter-compilation walk terminates at the first such node:
the generated filter contains clauses only for matching events that occur
strictly before the first null-data node, and all later events are silently
excluded; the call-record append walk in updateCalls truncates at a
null-data node in the same way. -/
theorem null_data_truncates_walks :
    ∀ (sel : List Nat) (pre : List seq_analysis_item_t)
      (rest : List (Option seq_analysis_item_t))
      (ci_pre : List voip_calls_info_t)
      (ci_rest : List (Option voip_calls_info_t)) (rows : List TreeRow),
      rows.length ≤ ci_pre.length →
      (buildFilterStr sel (pre.map some ++ none :: rest) "" "" =
        compileFilterSpec sel pre) ∧
      (updateCalls (ci_pre.map some ++ none :: ci_rest) rows =
        updateCalls (ci_pre.map some) rows) := by
  intro sel pre rest ci_pre ci_rest rows h
  constructor
  · rw [buildFilterStr_truncates, buildFilterStr_eq_spec]
  · unfold updateCalls
    rw [drop_map_some_append _ _ _ h, takeWhileSome_map_some_append,
      ← List.map_drop, takeWhileSome_map_some]

/-- C10 witness: both truncation equations at a concrete index holding one
valid node, one null-data node and one trailing node. -/
theorem null_data_truncates_walks_witness :
    (buildFilterStr [1]
        (([⟨1, 5, true⟩] : List seq_analysis_item_t).map some ++
          none :: [some ⟨1, 6, true⟩]) "" "" =
      compileFilterSpec [1] [⟨1, 5, true⟩]) ∧
    (updateCalls ([sampleCallInfo].map some ++ none :: [some sampleCallInfo])
        [] =
      updateCalls ([sampleCallInfo].map some) []) :=
  null_data_truncates_walks [1] [⟨1, 5, true⟩] [some ⟨1, 6, true⟩]
    [sampleCallInfo] [some sampleCallInfo] [] (by decide)

end VoipCalls

namespace VoipCalls

theorem setVisibilityWalk_all_some (sel : List Nat)
    (l : List (Option seq_analysis_item_t)) (h : ∀ x ∈ l, x.isSome) :
    setVisibilityWalk sel l =
      l.map (Option.map
        (fun e => ⟨e.conv_num, e.fd_num, sel.contains e.conv_num⟩)) := by
  induction l with
  | nil => rfl
  | cons x rest ih =>
    cases x with
    | none => simpa using h none (List.mem_cons_self _ _)
    | some ga_item =>
      simp only [setVisibilityWalk, List.map_cons, Option.map_some]
      exact congrArg _ (ih fun x hx => h x (List.mem_cons_of_mem _ hx))

/-- C7: For every selected-call set, sequence-selection compilation
(showSequence) sets the display flag of every event in the Event Sequence
Index to true exactly when that event's conv_id is in the selected set and
to false otherwise, and removes no event from the index; in particular,
selecting two calls leaves display=true only on events owned by those two
calls. -/
theorem showSequence_sets_display :
    (∀ (selectedItems : List voip_calls_info_t)
        (es : List seq_analysis_item_t),
      (showSequence false selectedItems (es.map some)).Perm
        (es.map (fun e => some ⟨e.conv_num, e.fd_num,
          (selectedCallNums selectedItems).contains e.conv_num⟩))) ∧
    (showSequence false
        [{ sampleCallInfo with call_num := 1 },
         { sampleCallInfo with call_num := 2 }]
        (([⟨1, 1, false⟩, ⟨3, 2, true⟩, ⟨2, 3, false⟩] :
          List seq_analysis_item_t).map some) =
      [some ⟨1, 1, true⟩, some ⟨3, 2, false⟩, some ⟨2, 3, true⟩]) := by
  constructor
  · intro selectedItems es
    unfold showSequence
    rw [if_neg (by simp)]
    have hperm : (sequence_analysis_list_sort (es.map some)).Perm (es.map some) :=
      List.mergeSort_perm _ _
    have hsome : ∀ x ∈ sequence_analysis_list_sort (es.map some), x.isSome := by
      intro x hx
      have hx' := hperm.mem_iff.mp hx
      obtain ⟨e, _, rfl⟩ := List.mem_map.mp hx'
      rfl
    rw [setVisibilityWalk_all_some _ _ hsome]
    have := hperm.map (Option.map
      (fun e : seq_analysis_item_t =>
        (⟨e.conv_num, e.fd_num,
          (selectedCallNums selectedItems).contains e.conv_num⟩ :
          seq_analysis_item_t)))
    simpa [List.map_map, Function.comp] using this
  · unfold showSequence sequence_analysis_list_sort
    rw [if_neg (by simp), List.mergeSort_of_sorted (by decide)]
    rfl

end VoipCalls

namespace VoipCalls

theorem takeWhileSome_drop_length (l : List (Option α)) :
    takeWhileSome (l.drop (takeWhileSome l).length) = [] := by
  induction l with
  | nil => rfl
  | cons x rest ih =>
    cases x with
    | none => simp [takeWhileSome]
    | some a => simpa [takeWhileSome] using ih

/-- C9: Running the Table View Synchronizer refresh (updateCalls) twice in a
row with no intervening ingestion produces an identical rendered table the
second time: no rows are appended (new records are identified by store
position, i.e. the current row count indexes the store), and every row's
displayed field values and order are unchanged. -/
theorem updateCalls_refresh_idempotent :
    ∀ (callsinfos : List (Option voip_calls_info_t)) (rows : List TreeRow),
      updateCalls callsinfos (updateCalls callsinfos rows) =
        updateCalls callsinfos rows ∧
      (updateCalls callsinfos (updateCalls callsinfos rows)).length =
        (updateCalls callsinfos rows).length := by
  intro c rows
  have key : updateCalls c (updateCalls c rows) = updateCalls c rows := by
    unfold updateCalls
    rw [List.length_map, List.length_append, List.length_map, ← List.drop_drop,
      takeWhileSome_drop_length, List.map_nil, List.append_nil, List.map_map]
    refine List.map_congr_left ?_
    intro r _
    rfl
  exact ⟨key, by rw [key]⟩

theorem annotateSorting_through_neutral (l : List TableAction)
    (h : ∀ a ∈ l, ∀ b, sortingStep b a = b) (b : Bool) (l' : List TableAction) :
    annotateSorting b (l ++ l') =
      l.map (fun a => (b, a)) ++ annotateSorting b l' := by
  induction l with
  | nil => rfl
  | cons a l ih =>
    simp only [List.cons_append, annotateSorting, List.map_cons,
      h a (List.mem_cons_self _ _) b]
    exact congrArg _ (ih fun x hx => h x (List.mem_cons_of_mem _ hx))

theorem sortingAfter_through_neutral (l : List TableAction)
    (h : ∀ a ∈ l, ∀ b, sortingStep b a = b) (b : Bool) (l' : List TableAction) :
    sortingAfter b (l ++ l') = sortingAfter b l' := by
  induction l with
  | nil => rfl
  | cons a l ih =>
    show sortingAfter (sortingStep b a) (l ++ l') = _
    rw [h a (List.mem_cons_self _ _) b]
    exact ih fun x hx => h x (List.mem_cons_of_mem _ hx)

theorem mem_map_neutral {γ : Type} (f : γ → TableAction)
    (hf : ∀ x b, sortingStep b (f x) = b) (xs : List γ) :
    ∀ a ∈ xs.map f, ∀ b, sortingStep b a = b := by
  intro a ha b
  obtain ⟨x, _, rfl⟩ := List.mem_map.mp ha
  exact hf x b

/-- C8: During every refresh cycle of the Table View Synchronizer
(updateCalls), sorting is disabled before the append+refresh pass begins and
is re-enabled only after every row has been appended and refreshed, so that
sorting is never active against a partially updated table: every append or
refresh action in the trace executes with the sorting-enabled flag false,
and the flag is true again once the trace completes. -/
theorem updateCalls_suspends_sorting :
    ∀ (callsinfos : List (Option voip_calls_info_t)) (rowCount colCount : Nat),
      ((annotateSorting true (updateCallsTrace callsinfos rowCount colCount)).all
        (fun p => !(isTableMutation p.2) || !p.1)) = true ∧
      sortingAfter true (updateCallsTrace callsinfos rowCount colCount) = true := by
  intro c rc cc
  have hA := mem_map_neutral TableAction.appendRow (fun x b => rfl)
    (takeWhileSome (c.drop rc))
  have hR := mem_map_neutral TableAction.refreshRow (fun x b => rfl)
    (List.range (rc + (takeWhileSome (c.drop rc)).length))
  have hZ := mem_map_neutral TableAction.resizeColumn (fun x b => rfl)
    (List.range cc)
  have hM : ∀ a ∈ (takeWhileSome (c.drop rc)).map TableAction.appendRow ++
      (List.range (rc + (takeWhileSome (c.drop rc)).length)).map
        TableAction.refreshRow ++
      (List.range cc).map TableAction.resizeColumn,
      ∀ b, sortingStep b a = b := by
    intro a ha b
    rcases List.mem_append.mp ha with h1 | h2
    · rcases List.mem_append.mp h1 with h3 | h4
      · exact hA a h3 b
      · exact hR a h4 b
    · exact hZ a h2 b
  constructor
  · simp only [updateCallsTrace, annotateSorting, sortingStep,
      annotateSorting_through_neutral _ hM, List.all_cons, List.all_append,
      List.all_map]
    simp [isTableMutation, annotateSorting, Function.comp]
  · simp only [updateCallsTrace]
    show sortingAfter (sortingStep true (TableAction.setSortingEnabled false)) _ = true
    simp only [sortingStep, sortingAfter_through_neutral _ hM]
    rfl

end VoipCalls

namespace VoipCalls

theorem nstime_cmp_lt_iff (a b : nstime_t) :
    nstime_cmp a b < 0 ↔
      (a.secs < b.secs ∨ (a.secs = b.secs ∧ a.nsecs < b.nsecs)) := by
  unfold nstime_cmp
  split_ifs <;> omega

theorem nstime_cmp_self (a : nstime_t) : nstime_cmp a a = 0 := by
  unfold nstime_cmp
  split_ifs <;> omega

theorem cmp_address_lt_iff (a b : address) : cmp_address a b < 0 ↔ a < b := by
  unfold cmp_address
  split_ifs with h1 h2
  · simpa using h1
  · constructor
    · intro h
      omega
    · intro h
      exact absurd h h1
  · constructor
    · intro h
      omega
    · intro h
      exact absurd h h1

theorem itemLt_start (a b : voip_calls_info_t) :
    itemLt start_time_col_ a b =
      decide (nstime_cmp a.start_rel_ts b.start_rel_ts < 0) := by
  simp [itemLt]

theorem itemLt_stop (a b : voip_calls_info_t) :
    itemLt stop_time_col_ a b =
      decide (nstime_cmp a.stop_rel_ts b.stop_rel_ts < 0) := by
  simp [itemLt, stop_time_col_, start_time_col_]

end VoipCalls

namespace VoipCalls

/-- C6: For every sort key (start time, stop time, initial speaker, packet
count, or any fallback column) and every call record A, the comparator is
irreflexive (A < A is false), is transitive on non-tied inputs, and
evaluating it on two equal records returns a result (false) without
crashing. -/
theorem comparator_irrefl_trans :
    (∀ (sortCol : Nat) (a : voip_calls_info_t), itemLt sortCol a a = false) ∧
    (∀ (sortCol : Nat) (a b c : voip_calls_info_t),
      itemLt sortCol a b = true → itemLt sortCol b c = true →
      itemLt sortCol a c = true) := by
  constructor
  · intro sortCol a
    unfold itemLt
    split_ifs <;>
      simp [nstime_cmp_lt_iff, cmp_address_lt_iff, lt_self_iff_false]
  · intro sortCol a b c hab hbc
    unfold itemLt at hab hbc ⊢
    split_ifs at hab hbc ⊢
    · simp only [decide_eq_true_eq, nstime_cmp_lt_iff] at hab hbc ⊢
      omega
    · simp only [decide_eq_true_eq, nstime_cmp_lt_iff] at hab hbc ⊢
      omega
    · simp only [decide_eq_true_eq, cmp_address_lt_iff] at hab hbc ⊢
      exact lt_trans hab hbc
    · simp only [decide_eq_true_eq] at hab hbc ⊢
      omega
    · simp only [decide_eq_true_eq] at hab hbc ⊢
      exact lt_trans hab hbc

/-- C6 witness: transitivity instantiated with the packet-count sort key on
three concrete records, and irreflexivity on the first of them. -/
theorem comparator_irrefl_trans_witness :
    itemLt packets_col_ sampleCallInfo
        { sampleCallInfo with npackets := 9 } = true ∧
    itemLt packets_col_ sampleCallInfo sampleCallInfo = false :=
  ⟨comparator_irrefl_trans.2 packets_col_ sampleCallInfo
      { sampleCallInfo with npackets := 5 }
      { sampleCallInfo with npackets := 9 }
      (by decide) (by decide),
   comparator_irrefl_trans.1 packets_col_ sampleCallInfo⟩

end VoipCalls

namespace VoipCalls

theorem stable_of_time_col (col : Nat) (f : voip_calls_info_t → nstime_t)
    (hcol : ∀ a b, itemLt col a b = decide (nstime_cmp (f a) (f b) < 0))
    (a b : voip_calls_info_t) (l : List voip_calls_info_t)
    (htie : f a = f b) (hsub : [a, b].Sublist l) :
    [a, b].Sublist (qtStableSort col l) := by
  unfold qtStableSort
  refine List.pair_sublist_mergeSort ?_ ?_ ?_ hsub
  · intro x y z hxy hyz
    simp only [hcol, Bool.not_eq_true', decide_eq_false_iff_not,
      nstime_cmp_lt_iff] at hxy hyz ⊢
    omega
  · intro x y
    simp only [hcol, Bool.or_eq_true, Bool.not_eq_true',
      decide_eq_false_iff_not, nstime_cmp_lt_iff]
    omega
  · simp only [hcol, Bool.not_eq_true', decide_eq_false_iff_not, htie,
      nstime_cmp_self]
    omega

/-- C5: When the active sort key is start time or stop time, the comparator
orders two call records by numeric comparison of the corresponding relative
timestamp (the comparator result coincides with comparing the timestamps as
single nanosecond-valued numbers, for normalized timestamps), and for every
pair of records with equal timestamps the tie is broken by store (creation)
order: a tied pair keeps its relative input order through the stable sort. -/
theorem time_sort_numeric_and_stable :
    (∀ a b : voip_calls_info_t,
      nstimeValid a.start_rel_ts → nstimeValid b.start_rel_ts →
      (itemLt start_time_col_ a b = true ↔
        nstimeValue a.start_rel_ts < nstimeValue b.start_rel_ts)) ∧
    (∀ a b : voip_calls_info_t,
      nstimeValid a.stop_rel_ts → nstimeValid b.stop_rel_ts →
      (itemLt stop_time_col_ a b = true ↔
        nstimeValue a.stop_rel_ts < nstimeValue b.stop_rel_ts)) ∧
    (∀ (a b : voip_calls_info_t) (l : List voip_calls_info_t),
      a.start_rel_ts = b.start_rel_ts → [a, b].Sublist l →
      [a, b].Sublist (qtStableSort start_time_col_ l)) ∧
    (∀ (a b : voip_calls_info_t) (l : List voip_calls_info_t),
      a.stop_rel_ts = b.stop_rel_ts → [a, b].Sublist l →
      [a, b].Sublist (qtStableSort stop_time_col_ l)) := by
  refine ⟨?_, ?_, ?_, ?_⟩
  · intro a b ha hb
    rw [itemLt_start]
    simp only [decide_eq_true_eq, nstime_cmp_lt_iff]
    unfold nstimeValid at ha hb
    unfold nstimeValue
    omega
  · intro a b ha hb
    rw [itemLt_stop]
    simp only [decide_eq_true_eq, nstime_cmp_lt_iff]
    unfold nstimeValid at ha hb
    unfold nstimeValue
    omega
  · exact stable_of_time_col start_time_col_ (fun ci => ci.start_rel_ts)
      itemLt_start
  · exact stable_of_time_col stop_time_col_ (fun ci => ci.stop_rel_ts)
      itemLt_stop

/-- C5 witness: the numeric characterization and the tie-stability part
instantiated on concrete records. -/
theorem time_sort_numeric_and_stable_witness :
    (itemLt start_time_col_ sampleCallInfo
        { sampleCallInfo with start_rel_ts := ⟨2, 0⟩ } = true ↔
      nstimeValue sampleCallInfo.start_rel_ts <
        nstimeValue (⟨2, 0⟩ : nstime_t)) ∧
    [sampleCallInfo, { sampleCallInfo with npackets := 7 }].Sublist
      (qtStableSort start_time_col_
        [sampleCallInfo, { sampleCallInfo with npackets := 7 }]) :=
  ⟨time_sort_numeric_and_stable.1 sampleCallInfo
      { sampleCallInfo with start_rel_ts := ⟨2, 0⟩ } (by decide) (by decide),
   time_sort_numeric_and_stable.2.2.1 sampleCallInfo
      { sampleCallInfo with npackets := 7 }
      [sampleCallInfo, { sampleCallInfo with npackets := 7 }] rfl
      (List.Sublist.refl _)⟩

end VoipCalls
